import Mathlib

/-!
Verification development for the spellbook contract-obligation extraction
pipeline.  The Python modules `app/utils/validators.py`,
`app/services/pdf_parser.py`, `app/services/llm_service.py` and
`app/services/obligation_extractor.py` are shallowly embedded below.
Python strings are modelled by Lean `String`; the Python string methods
used by the code (`strip`, `lower`, `split`, `join`, `endswith`,
`replace`) are modelled explicitly on the underlying character lists.
External effects (the PyMuPDF/pdfminer libraries, the two LLM HTTP
clients, `json.loads`, and UTF-8 byte decoding) are modelled as oracle
inputs collected in an environment record; everything that is code of the
repository is translated directly.
-/

set_option maxRecDepth 100000

namespace Spellbook

instance {ε α : Type} [DecidableEq ε] [DecidableEq α] : DecidableEq (Except ε α) :=
  fun a b =>
    match a, b with
    | .ok x, .ok y =>
      if h : x = y then isTrue (by rw [h]) else isFalse (by simp [h])
    | .error x, .error y =>
      if h : x = y then isTrue (by rw [h]) else isFalse (by simp [h])
    | .ok _, .error _ => isFalse (by simp)
    | .error _, .ok _ => isFalse (by simp)

/-- Python `str.isspace`-style whitespace test used by `strip` and `split`. -/
def isWS (c : Char) : Bool := c.isWhitespace

/-- Drop leading whitespace characters (left part of Python `str.strip`). -/
def ldropWS (l : List Char) : List Char := l.dropWhile isWS

/-- Character-list model of Python `str.strip()`: drop leading whitespace,
then drop trailing whitespace. -/
def stripList (l : List Char) : List Char :=
  (ldropWS ((ldropWS l).reverse)).reverse

/-- Model of Python `s.strip()`. -/
def pyStrip (s : String) : String := ⟨stripList s.data⟩

/-- Model of Python `s.lower()` (ASCII case folding suffices for the
strings used by the code). -/
def pyLower (s : String) : String := ⟨s.data.map Char.toLower⟩

/-- Accumulator worker for Python `s.split()` with no separator:
split on runs of whitespace, never producing empty tokens. -/
def pyWordsAux : List Char → List Char → List (List Char)
  | [], acc => if acc = [] then [] else [acc.reverse]
  | c :: rest, acc =>
    if isWS c then
      if acc = [] then pyWordsAux rest []
      else acc.reverse :: pyWordsAux rest []
    else pyWordsAux rest (c :: acc)

/-- Model of Python `s.split()` (whitespace-delimited tokens). -/
def pyWords (s : String) : List (List Char) := pyWordsAux s.data []

/-- Model of Python `' '.join(words)`. -/
def joinWordsL (ws : List (List Char)) : List Char :=
  (ws.intersperse [' ']).flatten

/-- Model of Python `' '.join(s.split())`, the whitespace-collapsing idiom
used by `_clean_obligation_text` and `_clean_summary_text`. -/
def collapseWS (s : String) : String := ⟨joinWordsL (pyWords s)⟩

/-- Model of Python `s.endswith('.')`. -/
def endsWithDot (s : String) : Bool := s.data.getLast? == some '.'

/-- Number of non-whitespace characters of a string (the quantity the
spec's length thresholds talk about). -/
def countNonWS (s : String) : Nat := (s.data.filter (fun c => !(isWS c))).length

/-- The apostrophe character, written via its code point. -/
def apostropheChar : Char := Char.ofNat 39

/-- Fuel-driven model of Python `s.replace(pat, rep)` for a non-empty
pattern: scan left to right, replace non-overlapping occurrences, never
rescan replaced text.  `fuel` is instantiated with the length of the
scanned list, which suffices since every step consumes at least one
character. -/
def replaceSubFuel : Nat → List Char → List Char → List Char → List Char
  | 0, _, _, l => l
  | _ + 1, _, _, [] => []
  | fuel + 1, pat, rep, c :: rest =>
    if pat.isPrefixOf (c :: rest) then
      rep ++ replaceSubFuel fuel pat rep ((c :: rest).drop pat.length)
    else
      c :: replaceSubFuel fuel pat rep rest

/-- Model of Python `s.replace(pat, rep)` (non-empty `pat`). -/
def pyReplace (s : String) (pat rep : List Char) : String :=
  ⟨replaceSubFuel s.data.length pat rep s.data⟩

/-- JSON values as produced by `json.loads`: objects are association
lists (parsed dictionaries have no duplicate keys). -/
inductive Json where
  | null : Json
  | bool (b : Bool) : Json
  | num (n : Int) : Json
  | str (s : String) : Json
  | arr (elems : List Json) : Json
  | obj (fields : List (String × Json)) : Json

/-- The validated obligation record, `class Obligation(BaseModel)` of
`app/utils/validators.py` (five string fields). -/
structure Obligation where
  obligation : String
  responsibleParty : String
  dueDate : String
  riskLevel : String
  summary : String
deriving DecidableEq, Repr

/-- Anchored match of the regex `\d{4}-\d{2}-\d{2}` (Python `re.match`:
the pattern must match at the start, trailing characters are allowed). -/
def matchYMD (l : List Char) : Bool :=
  match l with
  | a :: b :: c :: d :: s1 :: e :: f :: s2 :: g :: h :: _ =>
    a.isDigit && b.isDigit && c.isDigit && d.isDigit && (s1 == '-') &&
    e.isDigit && f.isDigit && (s2 == '-') && g.isDigit && h.isDigit
  | _ => false

/-- Consume `\d{1,2}` followed by the separator `sep` at the head of the
list, returning the remainder (greedy, as the regex engine matches it). -/
def matchD2Sep (sep : Char) (l : List Char) : Option (List Char) :=
  match l with
  | a :: b :: c :: rest =>
    if a.isDigit && b.isDigit && (c == sep) then some rest
    else if a.isDigit && (b == sep) then some (c :: rest)
    else none
  | [a, b] => if a.isDigit && (b == sep) then some [] else none
  | _ => none

/-- Anchored match of `\d{1,2}sep\d{1,2}sep\d{4}` (the `MM/DD/YYYY` and
`MM-DD-YYYY` patterns of `validate_due_date`). -/
def matchMDY (sep : Char) (l : List Char) : Bool :=
  match matchD2Sep sep l with
  | none => false
  | some r1 =>
    match matchD2Sep sep r1 with
    | none => false
    | some r2 =>
      match r2 with
      | a :: b :: c :: d :: _ => a.isDigit && b.isDigit && c.isDigit && d.isDigit
      | _ => false

/-- `Obligation.validate_due_date`: the case-insensitive literal
`ongoing` is canonicalized to `Ongoing`; a string matching one of three
date patterns is returned as is; any other string is also returned as
is. -/
def validate_due_date (v : String) : String :=
  if pyLower v = "ongoing" then "Ongoing"
  else if matchYMD v.data then v
  else if matchMDY '/' v.data then v
  else if matchMDY '-' v.data then v
  else v

/-- Look up a required string field of a parsed JSON object.  Pydantic
v1 would coerce some non-string scalars into `str`; the JSON payloads in
this development use string fields only, so a non-string value counts as
a failed construction. -/
def getStrField (fields : List (String × Json)) (key : String) : Option String :=
  match fields.lookup key with
  | some (Json.str s) => some s
  | _ => none

/-- Construction of an `Obligation` from one JSON array element, as
performed by `Obligation(**obligation)`: the five fields must be present
and string-valued, `riskLevel` must be one of the three allowed values
(otherwise the pydantic validator raises and the element is skipped),
and `dueDate` is normalized by `validate_due_date`. -/
def Obligation.fromJson (j : Json) : Option Obligation :=
  match j with
  | Json.obj fields =>
    match getStrField fields "obligation", getStrField fields "responsibleParty",
          getStrField fields "dueDate", getStrField fields "riskLevel",
          getStrField fields "summary" with
    | some o, some p, some d, some r, some s =>
      if r = "Low" ∨ r = "Medium" ∨ r = "High" then
        some ⟨o, p, validate_due_date d, r, s⟩
      else none
    | _, _, _, _, _ => none
  | _ => none

/-- The element loop of `validate_json_response`: each element is
validated inside its own try/except, appended on success and skipped on
failure. -/
def validateLoop : List Json → List Obligation → List Obligation
  | [], acc => acc
  | j :: rest, acc =>
    match Obligation.fromJson j with
    | some ob => validateLoop rest (acc ++ [ob])
    | none => validateLoop rest acc

/-- `validate_json_response`, taken from the point where
`json.loads(clean_json_response(response_text))` has run: `parsed` is
`none` when parsing raised `JSONDecodeError`, otherwise the parsed
value.  A non-list value yields `None`; an element-wise validated list
is returned, except that an empty validated list also yields `None`
(`return validated_obligations if validated_obligations else None`). -/
def validate_json_response (parsed : Option Json) : Option (List Obligation) :=
  match parsed with
  | none => none
  | some j =>
    match j with
    | Json.arr elems =>
      let validated := validateLoop elems []
      if validated = [] then none else some validated
    | _ => none

/-- `validate_contract_text`: reject empty text, text whose stripped
length is below 50, or text with fewer than 20 whitespace-delimited
tokens. -/
def validate_contract_text (text : String) : Bool :=
  if text = "" ∨ (pyStrip text).data.length < 50 then false
  else if (pyWords text).length < 20 then false
  else true

/-- The `party_mappings` dictionary lookup of `sanitize_party_name`
(`party_mappings.get(normalized, ...)`). -/
def party_mapping_get (k : String) : Option String :=
  if k = "party a" then some "Party A"
  else if k = "party b" then some "Party B"
  else if k = "company" then some "Company"
  else if k = "vendor" then some "Vendor"
  else if k = "client" then some "Client"
  else if k = "customer" then some "Customer"
  else if k = "supplier" then some "Supplier"
  else if k = "contractor" then some "Contractor"
  else if k = "subcontractor" then some "Subcontractor"
  else none

/-- `sanitize_party_name`: case-insensitive exact lookup of the stripped
name in the synonym table, defaulting to the stripped input. -/
def sanitize_party_name (party_name : String) : String :=
  match party_mapping_get (pyLower (pyStrip party_name)) with
  | some c => c
  | none => pyStrip party_name

/-- `_clean_obligation_text` of `ObligationExtractor`.  The source first
collapses whitespace, then removes every plain double quote (three
redundant single-character `replace` calls), then — because the
`replace(''', "'")` lines parse in Python as a replacement of the
fifteen-character substring «, "'").replace(» by an apostrophe, applied
twice — performs exactly that substring replacement twice, and finally
strips the result. -/
def clean_obligation_text (text : String) : String :=
  if text = "" then ""
  else
    let t1 := collapseWS text
    let t2 : String := ⟨t1.data.filter (fun c => !(c == '"'))⟩
    let pat : List Char :=
      [',', ' ', '"', apostropheChar, '"', ')', '.',
       'r', 'e', 'p', 'l', 'a', 'c', 'e', '(']
    let t3 := pyReplace t2 pat [apostropheChar]
    let t4 := pyReplace t3 pat [apostropheChar]
    pyStrip t4

/-- `_clean_summary_text` of `ObligationExtractor`: collapse whitespace,
append a period when the collapsed text is non-empty and does not end
with one, then strip. -/
def clean_summary_text (text : String) : String :=
  if text = "" then ""
  else
    let t := collapseWS text
    let t2 := if t ≠ "" ∧ endsWithDot t = false then t ++ "." else t
    pyStrip t2

/-- An obligation record after `_post_process_obligations` (the source
mutates the dictionary in place and adds the `confidence` key). -/
structure ProcessedObligation where
  obligation : String
  responsibleParty : String
  dueDate : String
  riskLevel : String
  summary : String
  confidence : ℚ
deriving DecidableEq, Repr

/-- `_post_process_obligations`: per record, sanitize the party name,
clean the obligation text, clean the summary, and attach the fixed
confidence placeholder.  The per-record try/except of the source can
only fire on a missing dictionary key, which the typed `Obligation`
records coming out of validation cannot exhibit. -/
def post_process_obligations (obs : List Obligation) : List ProcessedObligation :=
  obs.map fun ob =>
    { obligation := clean_obligation_text ob.obligation
      responsibleParty := sanitize_party_name ob.responsibleParty
      dueDate := ob.dueDate
      riskLevel := ob.riskLevel
      summary := clean_summary_text ob.summary
      confidence := 0.85 }

/-- The dictionary returned by `_generate_risk_summary`. -/
structure RiskSummary where
  total_obligations : Nat
  low : Nat
  medium : Nat
  high : Nat
  high_risk_percentage : ℚ
  medium_risk_percentage : ℚ
  low_risk_percentage : ℚ
deriving DecidableEq, Repr

/-- `_generate_risk_summary`: tally the three risk levels and compute
percentages, 0 when the list is empty. -/
def generate_risk_summary (obs : List ProcessedObligation) : RiskSummary :=
  let low := (obs.filter (fun ob => ob.riskLevel = "Low")).length
  let medium := (obs.filter (fun ob => ob.riskLevel = "Medium")).length
  let high := (obs.filter (fun ob => ob.riskLevel = "High")).length
  let total := obs.length
  { total_obligations := total
    low := low
    medium := medium
    high := high
    high_risk_percentage := if 0 < total then (high : ℚ) / total * 100 else 0
    medium_risk_percentage := if 0 < total then (medium : ℚ) / total * 100 else 0
    low_risk_percentage := if 0 < total then (low : ℚ) / total * 100 else 0 }

/-- Oracle environment: everything the pipeline consumes that is not
code of the repository.  `openaiResponse`/`geminiResponse` model one
provider round trip: `Except.error` is a transport-level exception,
`Except.ok parsed` is a textual response whose cleaned text parses to
`parsed` (with `none` for unparseable JSON).  `pymupdfResult` and
`pdfminerResult` are the outcomes of the two PDF extraction strategies
(already passed through `_clean_extracted_text`), and `decodedText` is
`file_content.decode('utf-8', errors='ignore')`. -/
structure Env where
  openaiConfigured : Bool
  geminiConfigured : Bool
  openaiResponse : Except Unit (Option Json)
  geminiResponse : Except Unit (Option Json)
  pymupdfResult : Except Unit String
  pdfminerResult : Except Unit String
  decodedText : String

/-- The acceptance check of `PDFParser.extract_text`:
`if text and len(text.strip()) > 100`. -/
def pdf_text_ok (t : String) : Bool :=
  (!(t == "")) && decide (100 < (pyStrip t).data.length)

/-- Whether a strategy outcome clears `pdf_text_ok` (a raised strategy
never does). -/
def strategyUsable (r : Except Unit String) : Bool :=
  match r with
  | .ok t => pdf_text_ok t
  | .error _ => false

/-- The pdfminer fallback block of `PDFParser.extract_text`, reached
when PyMuPDF raised or its text failed the length check. -/
def pdf_fallback (env : Env) : Except String (String × String) :=
  match env.pdfminerResult with
  | .ok t =>
    if pdf_text_ok t then .ok (t, "pdfminer")
    else .error "Failed to extract text from PDF with both parsers"
  | .error _ => .error "Failed to extract text from PDF with both parsers"

/-- `PDFParser.extract_text`: accept the PyMuPDF result when it clears
the length check, otherwise fall back to pdfminer, otherwise raise
`ValueError` (modelled as `Except.error` with the message text). -/
def pdf_extract_text (env : Env) : Except String (String × String) :=
  match env.pymupdfResult with
  | .ok t =>
    if pdf_text_ok t then .ok (t, "PyMuPDF")
    else pdf_fallback env
  | .error _ => pdf_fallback env

/-- One provider block of `LLMService.extract_obligations`: when the
client is configured, perform the call (counting it) and validate the
response; an exception or a falsy validated result (`None` or an empty
list) falls through.  Returns the usable result, if any, and the number
of provider network calls made. -/
def attemptProvider (configured : Bool) (resp : Except Unit (Option Json)) :
    Option (List Obligation) × Nat :=
  if configured then
    match resp with
    | .error _ => (none, 1)
    | .ok parsed =>
      match validate_json_response parsed with
      | some (o :: os) => (some (o :: os), 1)
      | _ => (none, 1)
  else (none, 0)

/-- `LLMService.extract_obligations`: OpenAI first, Gemini second, and
`raise Exception("All LLM APIs failed to extract obligations")` when
neither block returned.  The second component counts provider network
calls. -/
def llm_extract_obligations (env : Env) :
    Except String (List Obligation × String) × Nat :=
  match attemptProvider env.openaiConfigured env.openaiResponse with
  | (some obs, c1) => (.ok (obs, "OpenAI GPT-4"), c1)
  | (none, c1) =>
    match attemptProvider env.geminiConfigured env.geminiResponse with
    | (some obs, c2) => (.ok (obs, "Google Gemini"), c1 + c2)
    | (none, c2) => (.error "All LLM APIs failed to extract obligations", c1 + c2)

/-- A provider attempt is usable when the provider is configured, the
transport call succeeds, and the validated response is a non-empty
list. -/
def providerUsable (configured : Bool) (resp : Except Unit (Option Json)) : Prop :=
  configured = true ∧
    ∃ parsed obs, resp = .ok parsed ∧
      validate_json_response parsed = some obs ∧ obs ≠ []

/-- `ObligationExtractor._extract_text`: dispatch on the declared file
type; `txt` decodes the bytes (never fails), anything unrecognized
raises `ValueError`. -/
def extract_text_step (env : Env) (file_type : String) :
    Except String (String × String) :=
  if pyLower file_type = "pdf" then pdf_extract_text env
  else if pyLower file_type = "txt" then .ok (env.decodedText, "text_decoder")
  else .error ("Unsupported file type: " ++ file_type)

/-- The result envelope of `ObligationExtractor.process_contract`.
Fields absent from the failure dictionary are modelled as `none`. -/
structure ExtractionResult where
  success : Bool
  error : Option String
  obligations : List ProcessedObligation
  total_obligations : Nat
  api_used : Option String
  parser_used : Option String
  contract_length : Option Nat
  risk_summary : Option RiskSummary
deriving DecidableEq, Repr

/-- The failure envelope built in the `except` block of
`process_contract`. -/
def failure_envelope (msg : String) : ExtractionResult :=
  { success := false
    error := some msg
    obligations := []
    total_obligations := 0
    api_used := none
    parser_used := none
    contract_length := none
    risk_summary := none }

/-- `ObligationExtractor.process_contract`: extract text, gate it with
`validate_contract_text` (raising "Contract text is too short or
invalid"), call the LLM gateway, post-process, and assemble the result;
every raised exception is caught and turned into a failure envelope.
The second component counts provider network calls. -/
def process_contract (env : Env) (file_type : String) : ExtractionResult × Nat :=
  match extract_text_step env file_type with
  | .error e => (failure_envelope e, 0)
  | .ok (contract_text, parser_used) =>
    if validate_contract_text contract_text then
      match llm_extract_obligations env with
      | (.ok (obs, api_used), n) =>
        let processed := post_process_obligations obs
        ({ success := true
           error := none
           obligations := processed
           total_obligations := processed.length
           api_used := some api_used
           parser_used := some parser_used
           contract_length := some contract_text.data.length
           risk_summary := some (generate_risk_summary processed) }, n)
      | (.error e, n) => (failure_envelope e, n)
    else (failure_envelope "Contract text is too short or invalid", 0)

/-- The dictionary returned by `LLMService.get_api_status`. -/
structure ApiStatus where
  openai_available : Bool
  gemini_available : Bool
  any_available : Bool
deriving DecidableEq, Repr

/-- `LLMService.get_api_status`. -/
def get_api_status (env : Env) : ApiStatus :=
  { openai_available := env.openaiConfigured
    gemini_available := env.geminiConfigured
    any_available := env.openaiConfigured || env.geminiConfigured }

/-- The dictionary returned by `ObligationExtractor.get_system_status`. -/
structure SystemStatus where
  apis_available : ApiStatus
  pdf_parser_available : Bool
  system_ready : Bool
deriving DecidableEq, Repr

/-- `ObligationExtractor.get_system_status`. -/
def get_system_status (env : Env) : SystemStatus :=
  { apis_available := get_api_status env
    pdf_parser_available := true
    system_ready := (get_api_status env).any_available }

/-- A well-formed obligation element as a provider would return it. -/
def goodObligationJson : Json :=
  Json.obj
    [("obligation", Json.str "Deliver the report"),
     ("responsibleParty", Json.str "Vendor"),
     ("dueDate", Json.str "2024-12-31"),
     ("riskLevel", Json.str "High"),
     ("summary", Json.str "Deliver report.")]

/-- The validated form of `goodObligationJson`. -/
def goodOb : Obligation :=
  ⟨"Deliver the report", "Vendor", "2024-12-31", "High", "Deliver report."⟩

/-- An element with an out-of-range `riskLevel`, rejected by the
pydantic validator. -/
def badElemJson : Json :=
  Json.obj
    [("obligation", Json.str "x"),
     ("responsibleParty", Json.str "y"),
     ("dueDate", Json.str "z"),
     ("riskLevel", Json.str "Critical"),
     ("summary", Json.str "w")]

/-- A well-formed element whose `obligation` and `summary` are both the
empty string (no field validator constrains either, so it passes
construction). -/
def emptyFieldsJson : Json :=
  Json.obj
    [("obligation", Json.str ""),
     ("responsibleParty", Json.str "party a"),
     ("dueDate", Json.str "ongoing"),
     ("riskLevel", Json.str "Low"),
     ("summary", Json.str "")]

/-- A contract text that clears the validity gate. -/
def longText : String :=
  "The vendor shall deliver the report to the client every month and the client shall pay the vendor within thirty days of receipt of the invoice."

/-- Twenty one-character tokens separated by double spaces: 58 characters
after stripping, but only 20 non-whitespace characters. -/
def sparseText : String := String.intercalate "  " (List.replicate 20 "a")

/-- Fifty-one one-character tokens separated by single spaces: 101
characters after stripping, but only 51 non-whitespace characters. -/
def sparsePdfText : String := String.intercalate " " (List.replicate 51 "a")

/-- Environment with neither provider configured and a too-short text
upload. -/
def envNoProvidersShort : Env :=
  { openaiConfigured := false
    geminiConfigured := false
    openaiResponse := .error ()
    geminiResponse := .error ()
    pymupdfResult := .error ()
    pdfminerResult := .error ()
    decodedText := "hi" }

/-- Environment with neither provider configured and a valid-length text
upload. -/
def envNoProvidersLong : Env :=
  { envNoProvidersShort with decodedText := longText }

/-- Environment where OpenAI is configured and answers with one valid
obligation, and the uploaded text is the sparse 20-token string. -/
def envSparseTextOk : Env :=
  { openaiConfigured := true
    geminiConfigured := false
    openaiResponse := .ok (some (Json.arr [goodObligationJson]))
    geminiResponse := .error ()
    pymupdfResult := .error ()
    pdfminerResult := .error ()
    decodedText := sparseText }

/-- Environment where OpenAI is configured and answers with one invalid
element followed by one valid element whose obligation and summary are
empty. -/
def envEmptyFields : Env :=
  { envSparseTextOk with
    openaiResponse := .ok (some (Json.arr [badElemJson, emptyFieldsJson]))
    decodedText := longText }

/-- Environment whose PyMuPDF strategy yields the sparse 101-character
text and whose pdfminer strategy raises. -/
def envSparsePdf : Env :=
  { envNoProvidersShort with pymupdfResult := .ok sparsePdfText }

/-- A dense 150-character PDF text with no whitespace at all. -/
def densePdfText : String := ⟨List.replicate 150 'a'⟩

/-- Environment whose PyMuPDF strategy yields the dense text. -/
def envDensePdf : Env :=
  { envNoProvidersShort with pymupdfResult := .ok densePdfText }

/-- The post-processed form of `goodOb`. -/
def processedGoodOb : ProcessedObligation :=
  ⟨"Deliver the report", "Vendor", "2024-12-31", "High", "Deliver report.", 0.85⟩

/-- A word list is well-formed when every word is non-empty and free of
whitespace characters — the shape `s.split()` always produces. -/
def goodWords (ws : List (List Char)) : Prop :=
  ∀ w ∈ ws, w ≠ [] ∧ ∀ c ∈ w, isWS c = false

/-- Dropping a prefix twice is the same as dropping it once. -/
lemma dropWhile_dropWhile (p : Char → Bool) (l : List Char) :
    (l.dropWhile p).dropWhile p = l.dropWhile p := by
  induction l with
  | nil => rfl
  | cons c t ih =>
    by_cases h : p c = true
    · simpa [List.dropWhile, h] using ih
    · simp [List.dropWhile, h]

/-- The head of a `dropWhile` result does not satisfy the predicate. -/
lemma dropWhile_head_false (p : Char → Bool) (l : List Char) (c : Char)
    (t : List Char) (h : l.dropWhile p = c :: t) : p c = false := by
  induction l with
  | nil => simp at h
  | cons a r ih =>
    by_cases ha : p a = true
    · exact ih (by simpa [List.dropWhile, ha] using h)
    · rw [List.dropWhile_cons_of_neg (by simp [ha])] at h
      cases h
      simpa using ha

/-- A list whose head fails the predicate is unchanged by `dropWhile`. -/
lemma dropWhile_of_head_false (p : Char → Bool) (c : Char) (t : List Char)
    (h : p c = false) : (c :: t).dropWhile p = c :: t := by
  simp [List.dropWhile, h]

/-- `dropWhile` keeps the last element when that element fails the
predicate. -/
lemma getLast?_dropWhile (p : Char → Bool) (l : List Char) (c : Char)
    (hc : p c = false) (h : l.getLast? = some c) :
    (l.dropWhile p).getLast? = some c := by
  induction l with
  | nil => simp at h
  | cons a r ih =>
    cases r with
    | nil =>
      simp only [List.getLast?_singleton, Option.some.injEq] at h
      subst h
      rw [dropWhile_of_head_false p a [] hc]
      simp
    | cons b r' =>
      rw [List.getLast?_cons_cons] at h
      by_cases ha : p a = true
      · rw [List.dropWhile_cons_of_pos ha]
        exact ih h
      · rw [List.dropWhile_cons_of_neg (by simp [ha])]
        rw [List.getLast?_cons_cons]
        exact h

/-- `ldropWS` is idempotent. -/
lemma ldropWS_ldropWS (l : List Char) : ldropWS (ldropWS l) = ldropWS l :=
  dropWhile_dropWhile isWS l

/-- A list headed by a non-whitespace character is unchanged by
`ldropWS`. -/
lemma ldropWS_head_nonWS (m : List Char)
    (hm : ∀ c t, m = c :: t → isWS c = false) : ldropWS m = m := by
  cases m with
  | nil => rfl
  | cons c t => exact dropWhile_of_head_false isWS c t (hm c t rfl)

/-- `ldropWS` fixes any strip result. -/
lemma ldropWS_stripList (l : List Char) :
    ldropWS (stripList l) = stripList l := by
  apply ldropWS_head_nonWS
  intro c t hct
  cases hA : ldropWS l with
  | nil =>
    have : stripList l = [] := by unfold stripList; rw [hA]; rfl
    rw [this] at hct
    simp at hct
  | cons a r =>
    have ha : isWS a = false := dropWhile_head_false isWS l a r hA
    have h1 : (ldropWS l).reverse.getLast? = some a := by
      rw [List.getLast?_reverse, hA]
      simp
    have h2 : (ldropWS ((ldropWS l).reverse)).getLast? = some a :=
      getLast?_dropWhile isWS _ a ha h1
    have h3 : (stripList l).head? = some a := by
      unfold stripList
      rw [List.head?_reverse]
      exact h2
    rw [hct] at h3
    simp only [List.head?_cons, Option.some.injEq] at h3
    rw [h3]
    exact ha

/-- Stripping is idempotent. -/
lemma stripList_stripList (l : List Char) :
    stripList (stripList l) = stripList l := by
  conv_lhs => rw [show stripList (stripList l)
    = (ldropWS ((ldropWS (stripList l)).reverse)).reverse from rfl]
  rw [ldropWS_stripList l]
  rw [show (stripList l).reverse = ldropWS ((ldropWS l).reverse) by
    unfold stripList; rw [List.reverse_reverse]]
  rw [ldropWS_ldropWS]
  rfl

/-- `pyStrip` is idempotent. -/
lemma pyStrip_pyStrip (s : String) : pyStrip (pyStrip s) = pyStrip s := by
  show (⟨stripList (String.mk (stripList s.data)).data⟩ : String)
      = ⟨stripList s.data⟩
  rw [show (String.mk (stripList s.data)).data = stripList s.data from rfl,
    stripList_stripList]

/-- Stripping keeps a trailing period. -/
lemma getLast?_stripList_dot (l : List Char) (h : l.getLast? = some '.') :
    (stripList l).getLast? = some '.' := by
  have hdot : isWS '.' = false := by decide
  have h1 : (ldropWS l).getLast? = some '.' := getLast?_dropWhile isWS l _ hdot h
  have h2 : (ldropWS l).reverse.head? = some '.' := by
    rw [List.head?_reverse]; exact h1
  have h3 : ldropWS ((ldropWS l).reverse) = (ldropWS l).reverse := by
    apply ldropWS_head_nonWS
    intro c t hct
    rw [hct] at h2
    simp only [List.head?_cons, Option.some.injEq] at h2
    rw [h2]
    exact hdot
  unfold stripList
  rw [h3, List.reverse_reverse]
  exact h1

/-- Words produced by the splitter are non-empty and whitespace-free. -/
lemma pyWordsAux_good (l : List Char) :
    ∀ acc, (∀ c ∈ acc, isWS c = false) → goodWords (pyWordsAux l acc) := by
  induction l with
  | nil =>
    intro acc hacc
    unfold pyWordsAux
    split_ifs with h
    · intro w hw
      simp at hw
    · intro w hw
      simp only [List.mem_singleton] at hw
      subst hw
      refine ⟨by simpa using h, ?_⟩
      intro c hc
      exact hacc c (List.mem_reverse.mp hc)
  | cons d rest ih =>
    intro acc hacc
    unfold pyWordsAux
    by_cases hd : isWS d = true
    · rw [if_pos hd]
      split_ifs with h
      · exact ih [] (by simp)
      · intro w hw
        rcases List.mem_cons.mp hw with rfl | hw2
        · exact ⟨by simpa using h, fun c hc => hacc c (List.mem_reverse.mp hc)⟩
        · exact ih [] (by simp) w hw2
    · rw [if_neg hd]
      refine ih (d :: acc) ?_
      intro c hc
      rcases List.mem_cons.mp hc with rfl | hc2
      · simpa using hd
      · exact hacc c hc2

/-- Scanning a whitespace-free word moves it into the accumulator. -/
lemma pyWordsAux_scan :
    ∀ (w : List Char), (∀ c ∈ w, isWS c = false) →
      ∀ l acc, pyWordsAux (w ++ l) acc = pyWordsAux l (w.reverse ++ acc) := by
  intro w
  induction w with
  | nil =>
    intro _ l acc
    simp
  | cons d w' ih =>
    intro hw l acc
    have hd : isWS d = false := hw d (List.mem_cons_self d w')
    have step : pyWordsAux (d :: (w' ++ l)) acc = pyWordsAux (w' ++ l) (d :: acc) := by
      simp only [pyWordsAux, hd]
      simp
    rw [List.cons_append, step,
      ih (fun c hc => hw c (List.mem_cons_of_mem d hc)) l (d :: acc)]
    congr 1
    simp

/-- Joining a single word is the word itself. -/
lemma joinWordsL_single (w : List Char) : joinWordsL [w] = w := by
  simp [joinWordsL]

/-- Joining at least two words puts a single space after the first. -/
lemma joinWordsL_cons₂ (w v : List Char) (rest : List (List Char)) :
    joinWordsL (w :: v :: rest) = w ++ ' ' :: joinWordsL (v :: rest) := by
  simp [joinWordsL, List.intersperse_cons₂]

/-- The join of any word list starts with its first word. -/
lemma joinWordsL_cons_shape (w : List Char) (rest : List (List Char)) :
    ∃ z, joinWordsL (w :: rest) = w ++ z := by
  cases rest with
  | nil => exact ⟨[], by rw [joinWordsL_single, List.append_nil]⟩
  | cons v rs => exact ⟨' ' :: joinWordsL (v :: rs), joinWordsL_cons₂ w v rs⟩

/-- Splitting the join of a well-formed word list recovers the list. -/
lemma words_join : ∀ ws, goodWords ws → pyWordsAux (joinWordsL ws) [] = ws := by
  intro ws
  induction ws with
  | nil =>
    intro _
    rfl
  | cons w rest ih =>
    intro h
    have hw := h w (List.mem_cons_self w rest)
    cases rest with
    | nil =>
      rw [joinWordsL_single]
      have hscan := pyWordsAux_scan w hw.2 [] []
      rw [List.append_nil] at hscan
      rw [hscan, List.append_nil]
      show (if w.reverse = [] then [] else [w.reverse.reverse]) = [w]
      rw [if_neg (by simpa using hw.1), List.reverse_reverse]
    | cons v rs =>
      rw [joinWordsL_cons₂,
        pyWordsAux_scan w hw.2 (' ' :: joinWordsL (v :: rs)) [],
        List.append_nil]
      have hsp : isWS ' ' = true := by decide
      have hna : w.reverse ≠ [] := by simpa using hw.1
      simp only [pyWordsAux, hsp, if_true, if_neg hna, List.reverse_reverse]
      congr 1
      exact ih (fun x hx => h x (List.mem_cons_of_mem w hx))

/-- A list with non-whitespace first and last characters is unchanged by
stripping. -/
lemma stripList_eq_self (l : List Char)
    (hh : ∀ c, l.head? = some c → isWS c = false)
    (hl : ∀ c, l.getLast? = some c → isWS c = false) :
    stripList l = l := by
  have h1 : ldropWS l = l := by
    cases l with
    | nil => rfl
    | cons d t => exact dropWhile_of_head_false isWS d t (hh d rfl)
  have h2 : ldropWS l.reverse = l.reverse := by
    cases hr : l.reverse with
    | nil => rfl
    | cons d t =>
      apply dropWhile_of_head_false
      apply hl
      rw [← List.head?_reverse, hr]
      rfl
  show (ldropWS ((ldropWS l).reverse)).reverse = l
  rw [h1, h2, List.reverse_reverse]

/-- The head of a well-formed join is not whitespace. -/
lemma joinWordsL_head (ws : List (List Char)) (h : goodWords ws) (c : Char)
    (hc : (joinWordsL ws).head? = some c) : isWS c = false := by
  cases ws with
  | nil => exact absurd hc (by simp [joinWordsL])
  | cons w rest =>
    have hw := h w (List.mem_cons_self w rest)
    obtain ⟨z, hz⟩ := joinWordsL_cons_shape w rest
    rw [hz] at hc
    cases hwn : w with
    | nil => exact absurd hwn hw.1
    | cons d t =>
      rw [hwn] at hc
      simp only [List.cons_append, List.head?_cons, Option.some.injEq] at hc
      subst hc
      exact hw.2 d (by rw [hwn]; exact List.mem_cons_self d t)

/-- A well-formed non-empty word list joins to a non-empty list. -/
lemma joinWordsL_ne_nil (ws : List (List Char)) (h : goodWords ws)
    (hne : ws ≠ []) : joinWordsL ws ≠ [] := by
  cases ws with
  | nil => exact absurd rfl hne
  | cons w rest =>
    obtain ⟨z, hz⟩ := joinWordsL_cons_shape w rest
    rw [hz]
    intro hcontra
    exact (h w (List.mem_cons_self w rest)).1 (List.append_eq_nil.mp hcontra).1

/-- The last character of a well-formed join is not whitespace. -/
lemma joinWordsL_last : ∀ ws, goodWords ws → ∀ c,
    (joinWordsL ws).getLast? = some c → isWS c = false := by
  intro ws
  induction ws with
  | nil =>
    intro _ c hc
    exact absurd hc (by simp [joinWordsL])
  | cons w rest ih =>
    intro h c hc
    cases rest with
    | nil =>
      rw [joinWordsL_single] at hc
      exact (h w (List.mem_cons_self w [])).2 c (List.mem_of_getLast?_eq_some hc)
    | cons v rs =>
      have hrest : goodWords (v :: rs) := fun x hx => h x (List.mem_cons_of_mem w hx)
      rw [joinWordsL_cons₂, List.getLast?_append] at hc
      cases hj : joinWordsL (v :: rs) with
      | nil => exact absurd hj (joinWordsL_ne_nil (v :: rs) hrest (by simp))
      | cons e es =>
        rw [hj, List.getLast?_cons_cons] at hc
        have hcs : (e :: es).getLast? = some c := by
          cases hg : (e :: es).getLast? with
          | none => exact absurd hg (by simp)
          | some c' =>
            rw [hg] at hc
            have hcc : c' = c := by simpa using hc
            subst hcc
            rfl
        apply ih hrest c
        rw [hj]
        exact hcs

/-- Stripping fixes the join of a well-formed word list. -/
lemma strip_joinWordsL (ws : List (List Char)) (h : goodWords ws) :
    stripList (joinWordsL ws) = joinWordsL ws :=
  stripList_eq_self _ (fun c hc => joinWordsL_head ws h c hc)
    (fun c hc => joinWordsL_last ws h c hc)

/-- Collapsing fixes the join of a well-formed word list. -/
lemma collapseWS_join (ws : List (List Char)) (h : goodWords ws) :
    collapseWS ⟨joinWordsL ws⟩ = ⟨joinWordsL ws⟩ := by
  show (⟨joinWordsL (pyWordsAux (String.mk (joinWordsL ws)).data [])⟩ : String) = _
  rw [show (String.mk (joinWordsL ws)).data = joinWordsL ws from rfl,
    words_join ws h]

/-- Appending a non-whitespace character to a non-empty well-formed join
yields the join of another well-formed non-empty word list (the last
word grows by that character). -/
lemma joinWordsL_snoc_char : ∀ ws (c : Char), ws ≠ [] → isWS c = false →
    goodWords ws →
    ∃ ws', goodWords ws' ∧ ws' ≠ [] ∧
      joinWordsL ws' = joinWordsL ws ++ [c] := by
  intro ws
  induction ws with
  | nil =>
    intro c h
    exact absurd rfl h
  | cons w rest ih =>
    intro c _ hc hg
    cases rest with
    | nil =>
      refine ⟨[w ++ [c]], ?_, by simp, ?_⟩
      · intro x hx
        simp only [List.mem_singleton] at hx
        subst hx
        refine ⟨by simp, ?_⟩
        intro d hd
        rcases List.mem_append.mp hd with hd1 | hd2
        · exact (hg w (List.mem_cons_self w [])).2 d hd1
        · simp only [List.mem_singleton] at hd2
          subst hd2
          exact hc
      · rw [joinWordsL_single, joinWordsL_single]
    | cons v rs =>
      obtain ⟨ws'', hg'', hne'', hj''⟩ :=
        ih c (by simp) hc (fun x hx => hg x (List.mem_cons_of_mem w hx))
      refine ⟨w :: ws'', ?_, by simp, ?_⟩
      · intro x hx
        rcases List.mem_cons.mp hx with rfl | hx2
        · exact hg x (List.mem_cons_self x (v :: rs))
        · exact hg'' x hx2
      · cases hws : ws'' with
        | nil => exact absurd hws hne''
        | cons y ys =>
          subst hws
          rw [joinWordsL_cons₂ w y ys, hj'', joinWordsL_cons₂ w v rs]
          simp [List.append_assoc]

/-- The element loop accumulates exactly the valid elements, in order. -/
lemma validateLoop_eq_filterMap (l : List Json) (acc : List Obligation) :
    validateLoop l acc = acc ++ l.filterMap Obligation.fromJson := by
  induction l generalizing acc with
  | nil => simp [validateLoop]
  | cons j rest ih =>
    cases h : Obligation.fromJson j with
    | none => simp [validateLoop, h, ih]
    | some ob => simp [validateLoop, h, ih]

/-- A successful `matchYMD` needs at least ten characters. -/
lemma matchYMD_length (l : List Char) (h : matchYMD l = true) :
    10 ≤ l.length := by
  unfold matchYMD at h
  split at h
  · simp_all
  · simp at h

/-- Every canonical value of the synonym table is a fixed point of
`sanitize_party_name`. -/
lemma canonical_fixed (k c : String) (h : party_mapping_get k = some c) :
    sanitize_party_name c = c := by
  unfold party_mapping_get at h
  repeat' split at h
  all_goals
    first
    | exact Option.noConfusion h
    | (injection h with h2; subst h2; decide)

/-- Party-name normalization is idempotent. -/
lemma sanitize_party_name_idem (s : String) :
    sanitize_party_name (sanitize_party_name s) = sanitize_party_name s := by
  cases hm : party_mapping_get (pyLower (pyStrip s)) with
  | some c =>
    have h1 : sanitize_party_name s = c := by
      unfold sanitize_party_name
      rw [hm]
    rw [h1]
    exact canonical_fixed _ c hm
  | none =>
    have h1 : sanitize_party_name s = pyStrip s := by
      unfold sanitize_party_name
      rw [hm]
    rw [h1]
    unfold sanitize_party_name
    rw [pyStrip_pyStrip, hm]

/-- Due-date normalization is idempotent. -/
lemma validate_due_date_idem (v : String) :
    validate_due_date (validate_due_date v) = validate_due_date v := by
  by_cases h : pyLower v = "ongoing"
  · have h1 : validate_due_date v = "Ongoing" := by
      unfold validate_due_date
      rw [if_pos h]
    rw [h1]
    decide
  · have h1 : validate_due_date v = v := by
      unfold validate_due_date
      rw [if_neg h]
      split_ifs <;> rfl
    rw [h1]
    exact h1

/-- With neither client configured, the gateway raises its aggregate
error without any network call. -/
lemma llm_calls_zero (env : Env) (h1 : env.openaiConfigured = false)
    (h2 : env.geminiConfigured = false) :
    llm_extract_obligations env =
      (.error "All LLM APIs failed to extract obligations", 0) := by
  unfold llm_extract_obligations attemptProvider
  rw [h1, h2]
  simp

/-- A text failing the validity gate turns into the fixed failure
envelope with no provider call. -/
lemma process_validate_fail (env : Env) (ft t p : String)
    (hx : extract_text_step env ft = .ok (t, p))
    (hv : validate_contract_text t = false) :
    process_contract env ft =
      (failure_envelope "Contract text is too short or invalid", 0) := by
  unfold process_contract
  rw [hx]
  simp [hv]

/-- Every run of `process_contract` produces either a failure envelope
or a success envelope with consistent count fields. -/
lemma process_contract_shape (env : Env) (ft : String) :
    (∃ msg, (process_contract env ft).1 = failure_envelope msg) ∨
    ((process_contract env ft).1.success = true ∧
     (process_contract env ft).1.error = none ∧
     (process_contract env ft).1.total_obligations =
       (process_contract env ft).1.obligations.length) := by
  unfold process_contract
  rcases hx : extract_text_step env ft with e | ⟨t, p⟩
  · exact Or.inl ⟨e, rfl⟩
  · dsimp only
    split_ifs with hv
    · rcases hl : llm_extract_obligations env with ⟨r, n⟩
      rcases r with e2 | ⟨obs, api⟩
      · exact Or.inl ⟨e2, rfl⟩
      · exact Or.inr ⟨rfl, rfl, rfl⟩
    · exact Or.inl ⟨_, rfl⟩

/-- C8.  Due-date normalization: any case-insensitive spelling of
"ongoing" maps to exactly "Ongoing"; a string matching the `YYYY-MM-DD`
pattern passes through unchanged; any other string also passes through
unchanged, so the dueDate field never causes rejection. -/
theorem validate_due_date_normalization (v : String) :
    (pyLower v = "ongoing" → validate_due_date v = "Ongoing") ∧
    (matchYMD v.data = true → validate_due_date v = v) ∧
    (pyLower v ≠ "ongoing" → validate_due_date v = v) := by
  refine ⟨fun h => ?_, fun h => ?_, fun h => ?_⟩
  · unfold validate_due_date
    rw [if_pos h]
  · by_cases hon : pyLower v = "ongoing"
    · exfalso
      have hd : v.data.map Char.toLower = "ongoing".data := congrArg String.data hon
      have hlen := congrArg List.length hd
      rw [List.length_map] at hlen
      have h7 : "ongoing".data.length = 7 := rfl
      have h10 := matchYMD_length v.data h
      omega
    · unfold validate_due_date
      rw [if_neg hon, if_pos h]
  · unfold validate_due_date
    rw [if_neg h]
    split_ifs <;> rfl

/-- Witness for C8 at concrete inputs. -/
theorem validate_due_date_normalization_witness :
    validate_due_date "onGoing" = "Ongoing" ∧
    validate_due_date "upon request" = "upon request" :=
  ⟨(validate_due_date_normalization "onGoing").1 (by decide),
   (validate_due_date_normalization "upon request").2.2 (by decide)⟩

/-- C9.  Party-name normalization is idempotent; the three spellings of
"party a" normalize to "Party A"; unmatched values pass through
trimmed. -/
theorem sanitize_party_name_idempotent (s : String) :
    sanitize_party_name (sanitize_party_name s) = sanitize_party_name s ∧
    sanitize_party_name "party a" = "Party A" ∧
    sanitize_party_name "Party A" = "Party A" ∧
    sanitize_party_name "PARTY A" = "Party A" ∧
    (party_mapping_get (pyLower (pyStrip s)) = none →
      sanitize_party_name s = pyStrip s) := by
  refine ⟨sanitize_party_name_idem s, by decide, by decide, by decide, fun h => ?_⟩
  unfold sanitize_party_name
  rw [h]

/-- Witness for C9: an unmatched name passes through trimmed. -/
theorem sanitize_party_name_idempotent_witness :
    sanitize_party_name " Acme Holdings " = pyStrip " Acme Holdings " ∧
    pyStrip " Acme Holdings " = "Acme Holdings" :=
  ⟨(sanitize_party_name_idempotent " Acme Holdings ").2.2.2.2 (by decide),
   by decide⟩

/-- C1.  `process_contract` always returns an envelope (it is a total
function of its oracle inputs, mirroring the catch-all except block);
on success the envelope carries no error, and on every failure path it
has `success = false` together with a single human-readable error
string. -/
theorem process_contract_envelope (env : Env) (ft : String) :
    ((process_contract env ft).1.success = true ∧
       (process_contract env ft).1.error = none) ∨
    ((process_contract env ft).1.success = false ∧
       ∃ msg, (process_contract env ft).1.error = some msg) := by
  rcases process_contract_shape env ft with ⟨msg, h⟩ | ⟨h1, h2, _⟩
  · right
    rw [h]
    exact ⟨rfl, msg, rfl⟩
  · left
    exact ⟨h1, h2⟩

/-- C10.  Every envelope carries an obligations list and a
`total_obligations` count equal to its length; on failure these are the
empty list and 0. -/
theorem envelope_counts_consistent (env : Env) (ft : String) :
    (process_contract env ft).1.total_obligations =
      (process_contract env ft).1.obligations.length ∧
    ((process_contract env ft).1.success = false →
      (process_contract env ft).1.obligations = [] ∧
      (process_contract env ft).1.total_obligations = 0) := by
  rcases process_contract_shape env ft with ⟨msg, h⟩ | ⟨h1, _, h3⟩
  · rw [h]
    exact ⟨rfl, fun _ => ⟨rfl, rfl⟩⟩
  · refine ⟨h3, fun hfalse => ?_⟩
    rw [h1] at hfalse
    simp at hfalse

/-- Witness for C10 on a concrete failing run (unsupported file type). -/
theorem envelope_counts_consistent_witness :
    (process_contract envNoProvidersShort "docx").1.obligations = [] ∧
    (process_contract envNoProvidersShort "docx").1.total_obligations = 0 :=
  (envelope_counts_consistent envNoProvidersShort "docx").2 (by decide)

/-- C2.  The Response Validator returns exactly the element-wise valid
subset of a parsed JSON array in relative order; a parse failure, a
non-array top-level value, or zero surviving elements yield an absent
result, and an empty list is never returned. -/
theorem validate_json_response_valid_subset (parsed : Option Json) :
    (∀ elems, parsed = some (Json.arr elems) →
       validate_json_response parsed =
         if elems.filterMap Obligation.fromJson = [] then none
         else some (elems.filterMap Obligation.fromJson)) ∧
    ((∀ elems, parsed ≠ some (Json.arr elems)) →
       validate_json_response parsed = none) ∧
    validate_json_response parsed ≠ some [] := by
  refine ⟨fun elems he => ?_, fun h => ?_, ?_⟩
  · subst he
    show (if validateLoop elems [] = [] then none
          else some (validateLoop elems [])) =
        if elems.filterMap Obligation.fromJson = [] then none
        else some (elems.filterMap Obligation.fromJson)
    rw [validateLoop_eq_filterMap]
    simp
  · cases parsed with
    | none => rfl
    | some j =>
      cases j with
      | arr elems => exact absurd rfl (h elems)
      | null => rfl
      | bool b => rfl
      | num n => rfl
      | str s => rfl
      | obj fields => rfl
  · cases parsed with
    | none => simp [validate_json_response]
    | some j =>
      cases j with
      | arr elems =>
        show (if validateLoop elems [] = [] then none
              else some (validateLoop elems [])) ≠ some []
        split_ifs with hv
        · simp
        · simp only [ne_eq, Option.some.injEq]
          exact hv
      | null => simp [validate_json_response]
      | bool b => simp [validate_json_response]
      | num n => simp [validate_json_response]
      | str s => simp [validate_json_response]
      | obj fields => simp [validate_json_response]

/-- Witness for C2 on a concrete mixed array: only the valid element
survives, in place. -/
theorem validate_json_response_valid_subset_witness :
    validate_json_response
        (some (Json.arr [badElemJson, goodObligationJson, badElemJson]))
      = some [goodOb] := by
  have h := (validate_json_response_valid_subset
    (some (Json.arr [badElemJson, goodObligationJson, badElemJson]))).1
    [badElemJson, goodObligationJson, badElemJson] rfl
  rw [h]
  decide

/-- C4 (amended).  `process_contract` performs no readiness pre-flight
check: with neither provider configured the run still does text work and
fails through the gateway (or earlier), but the guarantee that no
provider network call occurs does hold, and `get_system_status`
separately reports the system as not ready. -/
theorem no_provider_calls_when_unconfigured (env : Env) (ft : String)
    (h1 : env.openaiConfigured = false) (h2 : env.geminiConfigured = false) :
    (process_contract env ft).2 = 0 ∧
    (process_contract env ft).1.success = false ∧
    (get_system_status env).system_ready = false := by
  have hl := llm_calls_zero env h1 h2
  have hs : (get_system_status env).system_ready = false := by
    simp [get_system_status, get_api_status, h1, h2]
  unfold process_contract
  rcases hx : extract_text_step env ft with e | ⟨t, p⟩
  · exact ⟨rfl, rfl, hs⟩
  · dsimp only
    split_ifs with hv
    · rw [hl]
      exact ⟨rfl, rfl, hs⟩
    · exact ⟨rfl, rfl, hs⟩

/-- Witness for C4 (amended) on a concrete unconfigured environment. -/
theorem no_provider_calls_when_unconfigured_witness :
    (process_contract envNoProvidersLong "txt").2 = 0 ∧
    (process_contract envNoProvidersLong "txt").1.success = false :=
  ⟨(no_provider_calls_when_unconfigured envNoProvidersLong "txt" rfl rfl).1,
   (no_provider_calls_when_unconfigured envNoProvidersLong "txt" rfl rfl).2.1⟩

/-- Counterexample for C4 as stated: with neither provider configured
the pipeline still runs text extraction and validation (the returned
error is the text-gate message, or the gateway's aggregate message for
valid text) and never produces a "system not ready" failure, even
though the readiness introspection reports not-ready. -/
theorem readiness_not_prechecked_counterexample :
    (get_system_status envNoProvidersShort).system_ready = false ∧
    (process_contract envNoProvidersShort "txt").1.error =
      some "Contract text is too short or invalid" ∧
    (get_system_status envNoProvidersLong).system_ready = false ∧
    (process_contract envNoProvidersLong "txt").1.error =
      some "All LLM APIs failed to extract obligations" := by
  decide

/-- C5 (amended).  The validity gate accepts exactly the texts whose
length after stripping leading and trailing whitespace is at least 50
(interior whitespace counts, unlike the spec's "non-whitespace
characters" reading) and which have at least 20 whitespace-delimited
tokens; a text failing the gate fails the request with the fixed
message before any provider call. -/
theorem text_gate_trimmed_length :
    (∀ t : String, validate_contract_text t = true ↔
       50 ≤ (pyStrip t).data.length ∧ 20 ≤ (pyWords t).length) ∧
    (∀ env ft t p, extract_text_step env ft = .ok (t, p) →
       validate_contract_text t = false →
       (process_contract env ft).1.error =
         some "Contract text is too short or invalid" ∧
       (process_contract env ft).2 = 0) := by
  constructor
  · intro t
    unfold validate_contract_text
    split_ifs with h1 h2
    · simp only [Bool.false_eq_true, false_iff]
      intro hc
      rcases h1 with rfl | hlen
      · have h0 : (pyStrip "").data.length = 0 := rfl
        omega
      · omega
    · simp only [Bool.false_eq_true, false_iff]
      intro hc
      omega
    · push_neg at h1 h2
      simp only [true_iff]
      exact ⟨by omega, by omega⟩
  · intro env ft t p hx hv
    rw [process_validate_fail env ft t p hx hv]
    exact ⟨rfl, rfl⟩

/-- Witness for C5 (amended) on a concrete too-short upload. -/
theorem text_gate_trimmed_length_witness :
    (process_contract envNoProvidersShort "txt").1.error =
      some "Contract text is too short or invalid" ∧
    (process_contract envNoProvidersShort "txt").2 = 0 :=
  (text_gate_trimmed_length).2 envNoProvidersShort "txt" "hi" "text_decoder"
    (by decide) (by decide)

/-- Counterexample for C5 as stated: `sparseText` has only 20
non-whitespace characters (fewer than 50), yet the gate accepts it and
the pipeline completes successfully after one provider call — the
50-character minimum is measured on the stripped text, interior
whitespace included, not on non-whitespace characters. -/
theorem text_gate_counterexample :
    validate_contract_text sparseText = true ∧
    countNonWS sparseText = 20 ∧
    (process_contract envSparseTextOk "txt").1.success = true ∧
    (process_contract envSparseTextOk "txt").2 = 1 := by
  decide

/-- Whether a strategy result fails the acceptance check for every
produced text. -/
lemma strategyUsable_false_elim (r : Except Unit String)
    (h : strategyUsable r = false) (t : String) (ht : r = .ok t) :
    pdf_text_ok t = false := by
  rw [ht] at h
  exact h

/-- The pdfminer block succeeds exactly on an accepted text. -/
lemma pdf_fallback_ok_of (env : Env) (t : String)
    (hr : env.pdfminerResult = .ok t) (hok : pdf_text_ok t = true) :
    pdf_fallback env = .ok (t, "pdfminer") := by
  unfold pdf_fallback
  rw [hr]
  simp [hok]

/-- The pdfminer block raises exactly when its strategy is unusable. -/
lemma pdf_fallback_error_iff (env : Env) :
    pdf_fallback env = .error "Failed to extract text from PDF with both parsers"
      ↔ strategyUsable env.pdfminerResult = false := by
  unfold pdf_fallback strategyUsable
  cases env.pdfminerResult with
  | error e => simp
  | ok t =>
    dsimp only
    split_ifs with h
    · simp [h]
    · simp [h]

/-- C6 (amended).  The PDF extractor accepts the primary result and
reports "PyMuPDF" exactly when the result is non-empty and its length
after stripping leading and trailing whitespace exceeds 100 (interior
whitespace counts, unlike the spec's "non-whitespace characters"
reading); otherwise it tries pdfminer under the same threshold, and
raises the fixed both-parsers error exactly when neither strategy
clears it. -/
theorem pdf_extract_text_fallback (env : Env) :
    (∀ t, pdf_text_ok t = true ↔ t ≠ "" ∧ 100 < (pyStrip t).data.length) ∧
    (∀ t, env.pymupdfResult = .ok t → pdf_text_ok t = true →
       pdf_extract_text env = .ok (t, "PyMuPDF")) ∧
    (strategyUsable env.pymupdfResult = false →
       ∀ t, env.pdfminerResult = .ok t → pdf_text_ok t = true →
         pdf_extract_text env = .ok (t, "pdfminer")) ∧
    (pdf_extract_text env =
        .error "Failed to extract text from PDF with both parsers" ↔
       strategyUsable env.pymupdfResult = false ∧
       strategyUsable env.pdfminerResult = false) := by
  refine ⟨fun t => ?_, fun t hr hok => ?_, fun hsu t hr hok => ?_, ?_⟩
  · unfold pdf_text_ok
    simp [Bool.and_eq_true]
  · unfold pdf_extract_text
    rw [hr]
    simp [hok]
  · unfold pdf_extract_text
    cases hm : env.pymupdfResult with
    | error e => exact pdf_fallback_ok_of env t hr hok
    | ok t' =>
      have h0 : pdf_text_ok t' = false := strategyUsable_false_elim _ hsu t' hm
      dsimp only
      rw [h0]
      simp only [Bool.false_eq_true, if_false]
      exact pdf_fallback_ok_of env t hr hok
  · unfold pdf_extract_text
    cases hm : env.pymupdfResult with
    | error e =>
      rw [show strategyUsable (Except.error e : Except Unit String) = false
        from rfl]
      simp only [true_and]
      exact pdf_fallback_error_iff env
    | ok t =>
      dsimp only
      split_ifs with h
      · constructor
        · intro hc
          exact hc.elim
        · intro ⟨hc, _⟩
          rw [show strategyUsable (Except.ok t : Except Unit String)
            = pdf_text_ok t from rfl, h] at hc
          exact Bool.noConfusion hc
      · rw [show strategyUsable (Except.ok t : Except Unit String)
          = pdf_text_ok t from rfl]
        simp only [Bool.not_eq_true] at h
        rw [h]
        simp only [true_and]
        exact pdf_fallback_error_iff env

/-- Witness for C6 (amended) on a concrete dense PDF text. -/
theorem pdf_extract_text_fallback_witness :
    pdf_extract_text envDensePdf = .ok (densePdfText, "PyMuPDF") :=
  (pdf_extract_text_fallback envDensePdf).2.1 densePdfText rfl (by decide)

/-- Counterexample for C6 as stated: `sparsePdfText` has only 51
non-whitespace characters (not more than 100), yet the primary result is
accepted and reported as "PyMuPDF" — the threshold is measured on the
stripped text, interior whitespace included. -/
theorem pdf_threshold_counterexample :
    pdf_extract_text envSparsePdf = .ok (sparsePdfText, "PyMuPDF") ∧
    countNonWS sparsePdfText = 51 := by
  decide

/-- A configured provider whose validated response is a non-empty list
makes its block return that list after one call. -/
lemma attemptProvider_of_ok (cfg : Bool) (resp : Except Unit (Option Json))
    (parsed : Option Json) (obs : List Obligation) (hc : cfg = true)
    (hr : resp = .ok parsed) (hv : validate_json_response parsed = some obs)
    (hne : obs ≠ []) : attemptProvider cfg resp = (some obs, 1) := by
  subst hc
  subst hr
  cases obs with
  | nil => exact absurd rfl hne
  | cons o os => simp [attemptProvider, hv]

/-- An unusable provider attempt yields no result. -/
lemma attemptProvider_not_usable (cfg : Bool) (resp : Except Unit (Option Json))
    (h : ¬ providerUsable cfg resp) : (attemptProvider cfg resp).1 = none := by
  cases cfg with
  | false => simp [attemptProvider]
  | true =>
    cases resp with
    | error e => simp [attemptProvider]
    | ok parsed =>
      cases hv : validate_json_response parsed with
      | none => simp [attemptProvider, hv]
      | some obs =>
        cases obs with
        | nil => simp [attemptProvider, hv]
        | cons o os =>
          exact absurd ⟨rfl, parsed, o :: os, rfl, hv, by simp⟩ h

/-- C3.  The gateway tries OpenAI first and returns its non-empty
validated result with the provider name; when OpenAI is unconfigured,
raises, or yields an absent or empty validated result, it falls back to
Gemini; and it raises the aggregate all-providers-failed error exactly
when neither configured provider yields a usable validated result. -/
theorem extract_obligations_fallback_order (env : Env) :
    (∀ parsed obs, env.openaiConfigured = true →
       env.openaiResponse = .ok parsed →
       validate_json_response parsed = some obs → obs ≠ [] →
       (llm_extract_obligations env).1 = .ok (obs, "OpenAI GPT-4")) ∧
    (¬ providerUsable env.openaiConfigured env.openaiResponse →
       ∀ parsed obs, env.geminiConfigured = true →
         env.geminiResponse = .ok parsed →
         validate_json_response parsed = some obs → obs ≠ [] →
         (llm_extract_obligations env).1 = .ok (obs, "Google Gemini")) ∧
    ((llm_extract_obligations env).1 =
        .error "All LLM APIs failed to extract obligations" ↔
       ¬ providerUsable env.openaiConfigured env.openaiResponse ∧
       ¬ providerUsable env.geminiConfigured env.geminiResponse) := by
  refine ⟨fun parsed obs hc hr hv hne => ?_, fun hno parsed obs hc hr hv hne => ?_, ?_, ?_⟩
  · unfold llm_extract_obligations
    rw [attemptProvider_of_ok _ _ parsed obs hc hr hv hne]
  · have h1 := attemptProvider_not_usable _ _ hno
    rcases ha : attemptProvider env.openaiConfigured env.openaiResponse with ⟨o1, c1⟩
    rw [ha] at h1
    dsimp only at h1
    subst h1
    unfold llm_extract_obligations
    rw [ha, attemptProvider_of_ok _ _ parsed obs hc hr hv hne]
  · intro he
    constructor
    · intro hu
      obtain ⟨hc, parsed, obs, hr, hv, hne⟩ := hu
      unfold llm_extract_obligations at he
      rw [attemptProvider_of_ok _ _ parsed obs hc hr hv hne] at he
      exact Except.noConfusion he
    · intro hu
      rcases ha : attemptProvider env.openaiConfigured env.openaiResponse with ⟨o1, c1⟩
      cases o1 with
      | some obs1 =>
        unfold llm_extract_obligations at he
        rw [ha] at he
        exact Except.noConfusion he
      | none =>
        obtain ⟨hc, parsed, obs, hr, hv, hne⟩ := hu
        unfold llm_extract_obligations at he
        rw [ha, attemptProvider_of_ok _ _ parsed obs hc hr hv hne] at he
        exact Except.noConfusion he
  · intro ⟨h1, h2⟩
    have a1 := attemptProvider_not_usable _ _ h1
    have a2 := attemptProvider_not_usable _ _ h2
    rcases ha : attemptProvider env.openaiConfigured env.openaiResponse with ⟨o1, c1⟩
    rcases hb : attemptProvider env.geminiConfigured env.geminiResponse with ⟨o2, c2⟩
    rw [ha] at a1
    rw [hb] at a2
    dsimp only at a1 a2
    subst a1
    subst a2
    unfold llm_extract_obligations
    rw [ha, hb]

/-- Witness for C3: a configured OpenAI with one valid obligation is
returned first, under its provider name. -/
theorem extract_obligations_fallback_order_witness :
    (llm_extract_obligations envSparseTextOk).1 =
      .ok ([goodOb], "OpenAI GPT-4") :=
  (extract_obligations_fallback_order envSparseTextOk).1
    (some (Json.arr [goodObligationJson])) [goodOb] rfl rfl (by decide)
    (by simp)

/-- The cleaned summary is a fixed point of stripping. -/
lemma clean_summary_trimmed (t : String) :
    pyStrip (clean_summary_text t) = clean_summary_text t := by
  unfold clean_summary_text
  split_ifs with h1
  · decide
  · exact pyStrip_pyStrip _

/-- A non-empty cleaned summary ends with a period. -/
lemma clean_summary_period (t : String) (h : clean_summary_text t ≠ "") :
    endsWithDot (clean_summary_text t) = true := by
  by_cases h1 : t = ""
  · exfalso
    apply h
    unfold clean_summary_text
    rw [if_pos h1]
  · have hform : clean_summary_text t =
        pyStrip (if collapseWS t ≠ "" ∧ endsWithDot (collapseWS t) = false
          then collapseWS t ++ "." else collapseWS t) := by
      unfold clean_summary_text
      rw [if_neg h1]
    by_cases h2 : collapseWS t ≠ "" ∧ endsWithDot (collapseWS t) = false
    · rw [hform, if_pos h2]
      have hdata : (collapseWS t ++ ".").data = (collapseWS t).data ++ ['.'] := rfl
      have hl : (collapseWS t ++ ".").data.getLast? = some '.' := by
        rw [hdata]
        exact List.getLast?_concat _
      have hs := getLast?_stripList_dot _ hl
      show (stripList (collapseWS t ++ ".").data).getLast? == some '.'
      rw [hs]
      rfl
    · by_cases h0 : collapseWS t = ""
      · exfalso
        apply h
        rw [hform, if_neg h2, h0]
        decide
      · have hdot : endsWithDot (collapseWS t) = true := by
          rcases not_and_or.mp h2 with hc | hc
          · exact absurd h0 (by simpa using hc)
          · simpa using hc
        have hl : (collapseWS t).data.getLast? = some '.' := by
          have := hdot
          unfold endsWithDot at this
          simpa using this
        have hs := getLast?_stripList_dot _ hl
        rw [hform, if_neg h2]
        show (stripList (collapseWS t).data).getLast? == some '.'
        rw [hs]
        rfl

/-- The cleaned summary is a fixed point of whitespace collapsing. -/
lemma clean_summary_collapsed (t : String) :
    collapseWS (clean_summary_text t) = clean_summary_text t := by
  by_cases h1 : t = ""
  · rw [show clean_summary_text t = "" by unfold clean_summary_text; rw [if_pos h1]]
    decide
  · have hgood : goodWords (pyWords t) := pyWordsAux_good t.data [] (by simp)
    have hu : (collapseWS t).data = joinWordsL (pyWords t) := rfl
    have hform0 : clean_summary_text t =
        pyStrip (if collapseWS t ≠ "" ∧ endsWithDot (collapseWS t) = false
          then collapseWS t ++ "." else collapseWS t) := by
      unfold clean_summary_text
      rw [if_neg h1]
    by_cases h2 : collapseWS t ≠ "" ∧ endsWithDot (collapseWS t) = false
    · have hform : clean_summary_text t = pyStrip (collapseWS t ++ ".") := by
        rw [hform0, if_pos h2]
      have hwsne : pyWords t ≠ [] := by
        intro hnil
        apply h2.1
        apply String.ext
        rw [hu, hnil]
        rfl
      obtain ⟨ws', hg', _, hj'⟩ :=
        joinWordsL_snoc_char (pyWords t) '.' hwsne (by decide) hgood
      have hdata : (collapseWS t ++ ".").data = joinWordsL ws' := by
        rw [hj']
        show (collapseWS t).data ++ ['.'] = joinWordsL (pyWords t) ++ ['.']
        rw [hu]
      have ho : clean_summary_text t = ⟨joinWordsL ws'⟩ := by
        rw [hform]
        show (⟨stripList (collapseWS t ++ ".").data⟩ : String) = _
        rw [hdata, strip_joinWordsL ws' hg']
      rw [ho]
      exact collapseWS_join ws' hg'
    · have hform : clean_summary_text t = pyStrip (collapseWS t) := by
        rw [hform0, if_neg h2]
      have ho : clean_summary_text t = ⟨joinWordsL (pyWords t)⟩ := by
        rw [hform]
        show (⟨stripList (collapseWS t).data⟩ : String) = _
        rw [hu, strip_joinWordsL _ hgood]
      rw [ho]
      exact collapseWS_join _ hgood

/-- The cleaned obligation text is a fixed point of stripping. -/
lemma clean_obligation_trimmed (t : String) :
    pyStrip (clean_obligation_text t) = clean_obligation_text t := by
  unfold clean_obligation_text
  split_ifs with h1
  · decide
  · exact pyStrip_pyStrip _

/-- Every record a successful validation returns was built by
`Obligation.fromJson` on some array element. -/
lemma validate_mem (parsed : Option Json) (obs : List Obligation)
    (hv : validate_json_response parsed = some obs) (ob : Obligation)
    (hob : ob ∈ obs) : ∃ j, Obligation.fromJson j = some ob := by
  cases parsed with
  | none => exact Option.noConfusion hv
  | some j =>
    cases j with
    | arr elems =>
      have hv2 : (if validateLoop elems [] = [] then none
          else some (validateLoop elems [])) = some obs := hv
      by_cases hemp : validateLoop elems [] = []
      · rw [if_pos hemp] at hv2
        exact Option.noConfusion hv2
      · rw [if_neg hemp] at hv2
        injection hv2 with hv3
        rw [← hv3, validateLoop_eq_filterMap, List.nil_append] at hob
        obtain ⟨j, _, hj⟩ := List.mem_filterMap.mp hob
        exact ⟨j, hj⟩
    | null => exact Option.noConfusion hv
    | bool b => exact Option.noConfusion hv
    | num n => exact Option.noConfusion hv
    | str s => exact Option.noConfusion hv
    | obj fields => exact Option.noConfusion hv

/-- A record built by `Obligation.fromJson` has an in-range risk
level. -/
lemma fromJson_riskLevel (j : Json) (ob : Obligation)
    (h : Obligation.fromJson j = some ob) :
    ob.riskLevel = "Low" ∨ ob.riskLevel = "Medium" ∨ ob.riskLevel = "High" := by
  unfold Obligation.fromJson at h
  repeat' split at h
  all_goals
    first
    | exact Option.noConfusion h
    | (injection h with h2
       subst h2
       assumption)

/-- A record built by `Obligation.fromJson` carries a normalized due
date (a fixed point of `validate_due_date`). -/
lemma fromJson_dueDate (j : Json) (ob : Obligation)
    (h : Obligation.fromJson j = some ob) :
    validate_due_date ob.dueDate = ob.dueDate := by
  unfold Obligation.fromJson at h
  repeat' split at h
  all_goals
    first
    | exact Option.noConfusion h
    | (injection h with h2
       subst h2
       exact validate_due_date_idem _)

/-- C7 (amended).  Every record in a post-processed result built from a
validated response has a risk level among Low, Medium, High, the fixed
confidence placeholder 0.85, a responsibleParty that is synonym-table
normalized (a fixed point of `sanitize_party_name`), a dueDate that is
a fixed point of due-date normalization, an obligation text that is a
fixed point of stripping, and a summary that is whitespace-collapsed, a
fixed point of stripping, and — when non-empty — ends with a period.
The obligation and summary fields may be empty, so the two "non-empty"
clauses of the data model do not hold; invalid elements were already
dropped individually during validation. -/
theorem post_process_invariants (parsed : Option Json)
    (obs : List Obligation) (hv : validate_json_response parsed = some obs) :
    ∀ r ∈ post_process_obligations obs,
      (r.riskLevel = "Low" ∨ r.riskLevel = "Medium" ∨ r.riskLevel = "High") ∧
      r.confidence = 0.85 ∧
      sanitize_party_name r.responsibleParty = r.responsibleParty ∧
      validate_due_date r.dueDate = r.dueDate ∧
      pyStrip r.obligation = r.obligation ∧
      pyStrip r.summary = r.summary ∧
      collapseWS r.summary = r.summary ∧
      (r.summary ≠ "" → endsWithDot r.summary = true) := by
  intro r hr
  obtain ⟨ob, hob, hfeq⟩ := List.mem_map.mp hr
  obtain ⟨j, hj⟩ := validate_mem parsed obs hv ob hob
  rw [← hfeq]
  exact ⟨fromJson_riskLevel j ob hj, rfl,
    sanitize_party_name_idem ob.responsibleParty,
    fromJson_dueDate j ob hj,
    clean_obligation_trimmed ob.obligation,
    clean_summary_trimmed ob.summary,
    clean_summary_collapsed ob.summary,
    fun hne => clean_summary_period ob.summary hne⟩

/-- Witness for C7 (amended) on a concrete validated record. -/
theorem post_process_invariants_witness :
    sanitize_party_name processedGoodOb.responsibleParty
      = processedGoodOb.responsibleParty ∧
    collapseWS processedGoodOb.summary = processedGoodOb.summary ∧
    endsWithDot processedGoodOb.summary = true := by
  have hmem : processedGoodOb ∈ post_process_obligations [goodOb] := by
    have e : post_process_obligations [goodOb] = [processedGoodOb] := rfl
    rw [e]
    exact List.mem_singleton.mpr rfl
  have h := post_process_invariants (some (Json.arr [goodObligationJson]))
    [goodOb] (by decide) processedGoodOb hmem
  exact ⟨h.2.2.1, h.2.2.2.2.2.2.1, h.2.2.2.2.2.2.2 (by decide)⟩

/-- Counterexample for C7 as stated: a provider response with one
invalid element and one well-formed element whose obligation and summary
are both empty yields a successful run whose result set contains exactly
the one record with empty obligation and empty summary — so neither the
"obligation non-empty after cleanup" constraint nor the "summary
non-empty ... terminated with a period" constraint holds of returned
records (the invalid element is dropped individually, as claimed). -/
theorem empty_obligation_and_summary_counterexample :
    (process_contract envEmptyFields "txt").1.success = true ∧
    (process_contract envEmptyFields "txt").1.obligations.map
      (fun r => r.obligation) = [""] ∧
    (process_contract envEmptyFields "txt").1.obligations.map
      (fun r => r.summary) = [""] := by
  decide

end Spellbook
